import Mathlib

/-!
The go-metrics types ComplexCounter and ComplexGaugeFloat64.

A shallow embedding of `complex_counter.go` and `complex_gauge_float64.go`.

* `int64` values are integers; every operation that can overflow reduces its
  result with `wrapInt64` (mod 2^64, read as two's complement).
* `uint64` values are naturals below 2^64.
* `float64` values are IEEE-754 binary64 values given by their three fields.
* Pointers are addresses into a `World`, which is passed explicitly.
* Threads are interleaved at the grain of one atomic operation.
* The registry, whose source is not among these files, is modelled from the
  words of the specification.
-/

namespace Metrics

/-! ## Machine integers -/

/-- The constant `math.MaxInt64`. -/
def MaxInt64 : Int := 9223372036854775807

/-- The constant `math.MinInt64`. -/
def MinInt64 : Int := -9223372036854775808

/-- Reduction of an integer mod 2^64, read as a two's-complement `int64`. -/
def wrapInt64 (x : Int) : Int :=
  (x + 9223372036854775808) % 18446744073709551616 - 9223372036854775808

/-- The integers that are `int64` values. -/
def isInt64 (x : Int) : Prop := MinInt64 ≤ x ∧ x ≤ MaxInt64

instance (x : Int) : Decidable (isInt64 x) := by
  unfold isInt64; exact inferInstance

/-- Go's unary minus on `int64`: the negation wraps. -/
def negInt64 (i : Int) : Int := wrapInt64 (-i)

/-! ## IEEE-754 binary64 -/

/-- A `float64` value: sign bit, 11-bit biased exponent and 52-bit fraction.
Exponent 2047 with fraction 0 is an infinity, exponent 2047 with any other
fraction is a NaN carrying that payload, exponent 0 with fraction 0 is a
signed zero. -/
structure Float64 where
  sign : Bool
  exponent : Nat
  fraction : Nat
  exponent_lt : exponent < 2048
  fraction_lt : fraction < 4503599627370496
deriving DecidableEq

namespace math

/-- The function `math.Float64bits`: the IEEE-754 binary representation of
`f`, with the sign bit in bit 63, the exponent in bits 52..62 and the fraction
in bits 0..51. -/
def Float64bits (f : Float64) : Nat :=
  (if f.sign then 9223372036854775808 else 0)
    + f.exponent * 4503599627370496 + f.fraction

/-- The function `math.Float64frombits`: the `float64` whose IEEE-754 binary
representation is the `uint64` value `b`. -/
def Float64frombits (b : Nat) : Float64 where
  sign := decide (b / 9223372036854775808 % 2 = 1)
  exponent := b / 4503599627370496 % 2048
  fraction := b % 4503599627370496
  exponent_lt := Nat.mod_lt _ (by decide)
  fraction_lt := Nat.mod_lt _ (by decide)

end math

/-- Go's `==` on `float64`: a NaN equals nothing, the two zeros are equal,
everything else is compared by its bits. -/
def Float64.eq (a b : Float64) : Bool :=
  if a.exponent = 2047 ∧ a.fraction ≠ 0 then false
  else if b.exponent = 2047 ∧ b.fraction ≠ 0 then false
  else if a.exponent = 0 ∧ a.fraction = 0 ∧ b.exponent = 0 ∧ b.fraction = 0 then true
  else decide (a = b)

/-- The constant `0.0`: positive zero, all 64 bits clear. -/
def Float64.zero : Float64 := ⟨false, 0, 0, by decide, by decide⟩

/-! ## The world: memory, the global flag, and the callbacks' environment -/

/-- A callback `func() float64`: a producer of `float64` values that reads and
changes an environment of type `σ`. -/
abbrev Callback (σ : Type) : Type := σ → Float64 × σ

/-- Everything a call can read or change. -/
structure World (σ : Type) where
  /-- The `int64` words in memory, by address. -/
  int64s : Nat → Int
  /-- The `uint64` words in memory, by address. -/
  uint64s : Nat → Nat
  /-- The first address that has not been allocated. -/
  next : Nat
  /-- The package variable `UseNilMetrics`. -/
  UseNilMetrics : Bool
  /-- The environment the callbacks act on. -/
  env : σ
  /-- The number of callback invocations made so far. -/
  calls : Nat

/-- How a call ends: it returns a value, or it panics with a message. -/
inductive Outcome (α : Type) where
  | returns (a : α)
  | panics (msg : String)
deriving DecidableEq

namespace atomic

/-- The function `atomic.StoreInt64(addr, val)`. -/
def StoreInt64 (mem : Nat → Int) (addr : Nat) (val : Int) : Nat → Int :=
  fun a => if a = addr then val else mem a

/-- The function `atomic.LoadInt64(addr)`. -/
def LoadInt64 (mem : Nat → Int) (addr : Nat) : Int := mem addr

/-- The function `atomic.AddInt64(addr, delta)`: adds with wraparound, returns
the new value and the memory afterwards. -/
def AddInt64 (mem : Nat → Int) (addr : Nat) (delta : Int) : Int × (Nat → Int) :=
  let new := wrapInt64 (mem addr + delta)
  (new, fun a => if a = addr then new else mem a)

/-- The function `atomic.StoreUint64(addr, val)`. -/
def StoreUint64 (mem : Nat → Nat) (addr : Nat) (val : Nat) : Nat → Nat :=
  fun a => if a = addr then val else mem a

/-- The function `atomic.LoadUint64(addr)`. -/
def LoadUint64 (mem : Nat → Nat) (addr : Nat) : Nat := mem addr

end atomic

/-! ## complex_counter.go -/

/-- The type `NilComplexCounter struct{}`. -/
structure NilComplexCounter where
deriving DecidableEq

namespace NilComplexCounter

/-- Clear is a no-op. -/
def Clear {σ : Type} (w : World σ) (_ : NilComplexCounter) : World σ := w

/-- Count is a no-op. -/
def Count {σ : Type} (_ : World σ) (_ : NilComplexCounter) : Int := 0

/-- Dec is a no-op. -/
def Dec {σ : Type} (w : World σ) (_ : NilComplexCounter) (_ : Int) : World σ := w

/-- Inc is a no-op. -/
def Inc {σ : Type} (w : World σ) (_ : NilComplexCounter) (_ : Int) : World σ := w

end NilComplexCounter

/-- A `*StandardComplexCounter`: the address of the struct, which is the
address of its only field `count int64`. -/
structure StandardComplexCounter where
  addr : Nat
deriving DecidableEq

namespace StandardComplexCounter

/-- Clear sets the counter to zero. -/
def Clear {σ : Type} (w : World σ) (c : StandardComplexCounter) : World σ :=
  { w with int64s := atomic.StoreInt64 w.int64s c.addr 0 }

/-- Count returns the current count. -/
def Count {σ : Type} (w : World σ) (c : StandardComplexCounter) : Int :=
  atomic.LoadInt64 w.int64s c.addr

/-- Dec decrements the counter by the given amount. -/
def Dec {σ : Type} (w : World σ) (c : StandardComplexCounter) (i : Int) : World σ :=
  { w with int64s := (atomic.AddInt64 w.int64s c.addr (negInt64 i)).2 }

/-- Inc increments the counter by the given amount. -/
def Inc {σ : Type} (w : World σ) (c : StandardComplexCounter) (i : Int) : World σ :=
  { w with int64s := (atomic.AddInt64 w.int64s c.addr i).2 }

end StandardComplexCounter

/-- The interface `ComplexCounter`, as the sum of the types that implement it. -/
inductive ComplexCounter where
  | ofNil (c : NilComplexCounter)
  | ofStandard (c : StandardComplexCounter)
deriving DecidableEq

namespace ComplexCounter

/-- Interface call `c.Clear()`. -/
def Clear {σ : Type} (w : World σ) : ComplexCounter → World σ
  | ofNil c => NilComplexCounter.Clear w c
  | ofStandard c => StandardComplexCounter.Clear w c

/-- Interface call `c.Count()`. -/
def Count {σ : Type} (w : World σ) : ComplexCounter → Int
  | ofNil c => NilComplexCounter.Count w c
  | ofStandard c => StandardComplexCounter.Count w c

/-- Interface call `c.Dec(i)`. -/
def Dec {σ : Type} (w : World σ) (c : ComplexCounter) (i : Int) : World σ :=
  match c with
  | ofNil c => NilComplexCounter.Dec w c i
  | ofStandard c => StandardComplexCounter.Dec w c i

/-- Interface call `c.Inc(i)`. -/
def Inc {σ : Type} (w : World σ) (c : ComplexCounter) (i : Int) : World σ :=
  match c with
  | ofNil c => NilComplexCounter.Inc w c i
  | ofStandard c => StandardComplexCounter.Inc w c i

end ComplexCounter

/-- NewComplexCounter constructs a new StandardComplexCounter: a no-op counter
when `UseNilMetrics` is set, otherwise a freshly allocated struct with
`count` 0. -/
def NewComplexCounter {σ : Type} (w : World σ) : ComplexCounter × World σ :=
  if w.UseNilMetrics then
    (ComplexCounter.ofNil {}, w)
  else
    (ComplexCounter.ofStandard ⟨w.next⟩,
      { w with int64s := fun a => if a = w.next then 0 else w.int64s a,
               next := w.next + 1 })

/-- One call on a counter. -/
inductive CounterCall where
  | Clear
  | Dec (i : Int)
  | Inc (i : Int)
deriving DecidableEq

/-- Performs one call on the counter `c`. -/
def CounterCall.perform {σ : Type} (c : ComplexCounter) (w : World σ) :
    CounterCall → World σ
  | Clear => ComplexCounter.Clear w c
  | Dec i => ComplexCounter.Dec w c i
  | Inc i => ComplexCounter.Inc w c i

/-- Performs the calls of a list in order on the counter `c`. -/
def performCalls {σ : Type} (c : ComplexCounter) (w : World σ)
    (calls : List CounterCall) : World σ :=
  calls.foldl (CounterCall.perform c) w

/-- The signed delta of a call: `+d` for `Inc(d)`, `-d` for `Dec(d)`. -/
def CounterCall.delta : CounterCall → Int
  | Clear => 0
  | Dec i => -i
  | Inc i => i

/-- A world with all memory zero, nothing allocated, metrics enabled. -/
def World.empty {σ : Type} (e : σ) : World σ :=
  { int64s := fun _ => 0, uint64s := fun _ => 0, next := 0,
    UseNilMetrics := false, env := e, calls := 0 }

/-! ## complex_gauge_float64.go -/

/-- The type `ComplexGaugeFloat64Snapshot float64`: a plain `float64` value. -/
structure ComplexGaugeFloat64Snapshot where
  val : Float64
deriving DecidableEq

/-- The type `NilComplexGaugeFloat64 struct{}`. -/
structure NilComplexGaugeFloat64 where
deriving DecidableEq

/-- A `*StandardComplexGaugeFloat64`: the address of the struct, which is the
address of its only field `value uint64`. -/
structure StandardComplexGaugeFloat64 where
  addr : Nat
deriving DecidableEq

/-- The type `FunctionalComplexGaugeFloat64 struct { value func() float64 }`. -/
structure FunctionalComplexGaugeFloat64 (σ : Type) where
  value : Callback σ

/-- The interface `ComplexGaugeFloat64`, as the sum of the types that
implement it. -/
inductive ComplexGaugeFloat64 (σ : Type) where
  | ofSnapshot (g : ComplexGaugeFloat64Snapshot)
  | ofNil (g : NilComplexGaugeFloat64)
  | ofStandard (g : StandardComplexGaugeFloat64)
  | ofFunctional (g : FunctionalComplexGaugeFloat64 σ)

/-- The call `f()` of a callback: runs `f` on the environment and counts the
invocation. -/
def Callback.call {σ : Type} (f : Callback σ) (w : World σ) : Float64 × World σ :=
  ((f w.env).1, { w with env := (f w.env).2, calls := w.calls + 1 })

namespace ComplexGaugeFloat64Snapshot

/-- Snapshot returns the snapshot. -/
def Snapshot {σ : Type} (w : World σ) (g : ComplexGaugeFloat64Snapshot) :
    ComplexGaugeFloat64 σ × World σ :=
  (.ofSnapshot g, w)

/-- Update panics. -/
def Update {σ : Type} (w : World σ) (_ : ComplexGaugeFloat64Snapshot) (_ : Float64) :
    Outcome Unit × World σ :=
  (.panics "Update called on a ComplexGaugeFloat64Snapshot", w)

/-- Value returns the value at the time the snapshot was taken. -/
def Value {σ : Type} (w : World σ) (g : ComplexGaugeFloat64Snapshot) :
    Float64 × World σ :=
  (g.val, w)

end ComplexGaugeFloat64Snapshot

namespace NilComplexGaugeFloat64

/-- Snapshot is a no-op. -/
def Snapshot {σ : Type} (w : World σ) (_ : NilComplexGaugeFloat64) :
    ComplexGaugeFloat64 σ × World σ :=
  (.ofNil {}, w)

/-- Update is a no-op. -/
def Update {σ : Type} (w : World σ) (_ : NilComplexGaugeFloat64) (_ : Float64) :
    Outcome Unit × World σ :=
  (.returns (), w)

/-- Value is a no-op. -/
def Value {σ : Type} (w : World σ) (_ : NilComplexGaugeFloat64) :
    Float64 × World σ :=
  (Float64.zero, w)

end NilComplexGaugeFloat64

namespace StandardComplexGaugeFloat64

/-- Update updates the gauge's value. -/
def Update {σ : Type} (w : World σ) (g : StandardComplexGaugeFloat64) (v : Float64) :
    Outcome Unit × World σ :=
  (.returns (),
    { w with uint64s := atomic.StoreUint64 w.uint64s g.addr (math.Float64bits v) })

/-- Value returns the gauge's current value. -/
def Value {σ : Type} (w : World σ) (g : StandardComplexGaugeFloat64) :
    Float64 × World σ :=
  (math.Float64frombits (atomic.LoadUint64 w.uint64s g.addr), w)

/-- Snapshot returns a read-only copy of the gauge. -/
def Snapshot {σ : Type} (w : World σ) (g : StandardComplexGaugeFloat64) :
    ComplexGaugeFloat64 σ × World σ :=
  let r := Value w g
  (.ofSnapshot ⟨r.1⟩, r.2)

end StandardComplexGaugeFloat64

namespace FunctionalComplexGaugeFloat64

/-- Value returns the gauge's current value. -/
def Value {σ : Type} (w : World σ) (g : FunctionalComplexGaugeFloat64 σ) :
    Float64 × World σ :=
  g.value.call w

/-- Snapshot returns the snapshot. -/
def Snapshot {σ : Type} (w : World σ) (g : FunctionalComplexGaugeFloat64 σ) :
    ComplexGaugeFloat64 σ × World σ :=
  let r := Value w g
  (.ofSnapshot ⟨r.1⟩, r.2)

/-- Update panics. -/
def Update {σ : Type} (w : World σ) (_ : FunctionalComplexGaugeFloat64 σ) (_ : Float64) :
    Outcome Unit × World σ :=
  (.panics "Update called on a FunctionalComplexGaugeFloat64", w)

end FunctionalComplexGaugeFloat64

namespace ComplexGaugeFloat64

/-- Interface call `g.Snapshot()`. -/
def Snapshot {σ : Type} (w : World σ) :
    ComplexGaugeFloat64 σ → ComplexGaugeFloat64 σ × World σ
  | ofSnapshot g => ComplexGaugeFloat64Snapshot.Snapshot w g
  | ofNil g => NilComplexGaugeFloat64.Snapshot w g
  | ofStandard g => StandardComplexGaugeFloat64.Snapshot w g
  | ofFunctional g => FunctionalComplexGaugeFloat64.Snapshot w g

/-- Interface call `g.Update(v)`. -/
def Update {σ : Type} (w : World σ) (g : ComplexGaugeFloat64 σ) (v : Float64) :
    Outcome Unit × World σ :=
  match g with
  | ofSnapshot g => ComplexGaugeFloat64Snapshot.Update w g v
  | ofNil g => NilComplexGaugeFloat64.Update w g v
  | ofStandard g => StandardComplexGaugeFloat64.Update w g v
  | ofFunctional g => FunctionalComplexGaugeFloat64.Update w g v

/-- Interface call `g.Value()`. -/
def Value {σ : Type} (w : World σ) :
    ComplexGaugeFloat64 σ → Float64 × World σ
  | ofSnapshot g => ComplexGaugeFloat64Snapshot.Value w g
  | ofNil g => NilComplexGaugeFloat64.Value w g
  | ofStandard g => StandardComplexGaugeFloat64.Value w g
  | ofFunctional g => FunctionalComplexGaugeFloat64.Value w g

end ComplexGaugeFloat64

/-- NewComplexGaugeFloat64 constructs a new StandardComplexGaugeFloat64: a
no-op gauge when `UseNilMetrics` is set, otherwise a freshly allocated struct
whose `value` word is the constant `0.0` converted to `uint64`, which is 0. -/
def NewComplexGaugeFloat64 {σ : Type} (w : World σ) : ComplexGaugeFloat64 σ × World σ :=
  if w.UseNilMetrics then
    (.ofNil {}, w)
  else
    (.ofStandard ⟨w.next⟩,
      { w with uint64s := fun a => if a = w.next then 0 else w.uint64s a,
               next := w.next + 1 })

/-- NewFunctionalComplexGaugeFloat64 constructs a new functional gauge from the
callback `f`, or a no-op gauge when `UseNilMetrics` is set. -/
def NewFunctionalComplexGaugeFloat64 {σ : Type} (w : World σ) (f : Callback σ) :
    ComplexGaugeFloat64 σ × World σ :=
  if w.UseNilMetrics then
    (.ofNil {}, w)
  else
    (.ofFunctional ⟨f⟩, w)

/-- Performs `g.Update(v)` for each `v` of a list in order; a panic ends the
sequence. -/
def performUpdates {σ : Type} (g : ComplexGaugeFloat64 σ) :
    World σ → List Float64 → Outcome Unit × World σ
  | w, [] => (.returns (), w)
  | w, v :: vs =>
    match ComplexGaugeFloat64.Update w g v with
    | (.returns _, w1) => performUpdates g w1 vs
    | (.panics msg, w1) => (.panics msg, w1)

/-- Performs `g.Value()` `n` times in a row and collects what the calls
return. -/
def performValues {σ : Type} (g : ComplexGaugeFloat64 σ) :
    Nat → World σ → List Float64 × World σ
  | 0, w => ([], w)
  | n + 1, w =>
    let r := ComplexGaugeFloat64.Value w g
    let rs := performValues g n r.2
    (r.1 :: rs.1, rs.2)

/-- The first `n` values a callback produces from the environment `e`. -/
def Callback.produced {σ : Type} (f : Callback σ) : Nat → σ → List Float64
  | 0, _ => []
  | n + 1, e => (f e).1 :: Callback.produced f n (f e).2

/-- The environment after `n` invocations of a callback. -/
def Callback.envAfter {σ : Type} (f : Callback σ) : Nat → σ → σ
  | 0, e => e
  | n + 1, e => Callback.envAfter f n (f e).2

/-- The constant `3.14`, bits 0x40091EB851EB851F. -/
def Float64.c3_14 : Float64 := ⟨false, 1024, 2567051787601183, by decide, by decide⟩

/-- The constant `42.0`, bits 0x4045000000000000. -/
def Float64.c42 : Float64 := ⟨false, 1028, 1407374883553280, by decide, by decide⟩

/-- The constant `43.0`, bits 0x4045800000000000. -/
def Float64.c43 : Float64 := ⟨false, 1028, 1548112371908608, by decide, by decide⟩

/-- A callback over a call counter: `42.0` on the first call, `43.0` after. -/
def callback42then43 : Callback Nat :=
  fun n => (if n = 0 then Float64.c42 else Float64.c43, n + 1)

/-- The spec's reading of `Dec(delta)`: the stored count has `delta` subtracted
from it, wrapped to 64 bits, and nothing else changes. -/
def specDec {σ : Type} (w : World σ) (c : StandardComplexCounter) (delta : Int) : World σ :=
  { w with int64s := fun a =>
      if a = c.addr then wrapInt64 (w.int64s c.addr - delta) else w.int64s a }

/-- Whether a call is `Inc` or `Dec`. -/
def CounterCall.isIncDec : CounterCall → Bool
  | Clear => false
  | Dec _ => true
  | Inc _ => true

/-- Performs `Snapshot()` `n` times in a row, each call on the gauge the call
before it returned. -/
def performSnapshots {σ : Type} :
    Nat → World σ → ComplexGaugeFloat64 σ → ComplexGaugeFloat64 σ × World σ
  | 0, w, g => (g, w)
  | n + 1, w, g =>
    let r := ComplexGaugeFloat64.Snapshot w g
    performSnapshots n r.2 r.1

/-- The call `c.Count()` as a step of a program: what it returns and the world
it leaves. The body is a single `atomic.LoadInt64`, which writes nothing, so
the world is the one the call was made in. -/
def ComplexCounter.CountStep {σ : Type} (w : World σ) (c : ComplexCounter) :
    Int × World σ :=
  (ComplexCounter.Count w c, w)

/-! ## Threads that increment one counter -/

/-- A configuration of `n` threads that share one counter and each run the loop
`for i := 0; i < m; i++ { c.Inc(1) }`: the world, and for every thread the
number of iterations it has completed. -/
structure IncThreads (σ : Type) (n : Nat) where
  world : World σ
  done : Fin n → Nat

namespace IncThreads

/-- The configuration in which no thread has run yet. -/
def start {σ : Type} (w : World σ) (n : Nat) : IncThreads σ n :=
  { world := w, done := fun _ => 0 }

/-- One scheduling step: thread `t` performs the `c.Inc(1)` of its next
iteration, which is one atomic step; a thread that has completed its `m`
iterations has nothing left to do. -/
def step {σ : Type} {n : Nat} (c : ComplexCounter) (m : Nat) (cfg : IncThreads σ n)
    (t : Fin n) : IncThreads σ n :=
  if cfg.done t < m then
    { world := ComplexCounter.Inc cfg.world c 1,
      done := fun x => if x = t then cfg.done t + 1 else cfg.done x }
  else
    cfg

/-- Runs the threads as a schedule says: the list names, step by step, the
thread that performs the next atomic step. -/
def run {σ : Type} {n : Nat} (c : ComplexCounter) (m : Nat) (cfg : IncThreads σ n)
    (schedule : List (Fin n)) : IncThreads σ n :=
  schedule.foldl (step c m) cfg

/-- Every thread has completed its `m` iterations. -/
def finished {σ : Type} {n : Nat} (m : Nat) (cfg : IncThreads σ n) : Prop :=
  ∀ t : Fin n, cfg.done t = m

instance {σ : Type} {n : Nat} (m : Nat) (cfg : IncThreads σ n) :
    Decidable (finished m cfg) := by
  unfold finished; exact inferInstance

/-- The schedule that lets the threads of a list run one after the other, each
for `m` steps. -/
def oneByOne {n : Nat} (m : Nat) : List (Fin n) → List (Fin n)
  | [] => []
  | t :: l => List.replicate m t ++ oneByOne m l

end IncThreads

/-! ## The registry collaborator -/

/-- Modelled from the spec: an instrumentation instance, which is what a
Registry maps a name to. The registry's own source is not among these files;
the instances the spec knows are counters and gauges. -/
inductive Instance (σ : Type) where
  | counter (c : ComplexCounter)
  | gauge (g : ComplexGaugeFloat64 σ)

/-- Modelled from the spec: the contents of a Registry, "an external key-value
store mapping a name to an instrumentation instance". -/
abbrev Registry (σ : Type) : Type := String → Option (Instance σ)

/-- The world together with the registries. A value of the interface type
`Registry` is `none` for nil and otherwise the address of a registry. -/
structure System (σ : Type) where
  world : World σ
  /-- The registries in memory, by address. -/
  registries : Nat → Registry σ
  /-- The package variable `DefaultRegistry`. -/
  DefaultRegistry : Nat

/-- The statement `if nil == r { r = DefaultRegistry }`: the registry a call
works on. -/
def System.registry {σ : Type} (s : System σ) : Option Nat → Nat
  | none => s.DefaultRegistry
  | some r => r

/-- The registries after `i` has been stored under `name` in registry `r`. -/
def System.store {σ : Type} (s : System σ) (r : Nat) (name : String) (i : Instance σ) :
    Nat → Registry σ :=
  fun a => if a = r then (fun k => if k = name then some i else s.registries r k)
    else s.registries a

/-- Modelled from the spec: `GetOrRegister(name, constructor)`, which
"atomically returns existing or constructs-and-stores a new one". -/
def Registry.GetOrRegister {σ : Type} (s : System σ) (r : Nat) (name : String)
    (constructor : World σ → Instance σ × World σ) : Instance σ × System σ :=
  match s.registries r name with
  | some i => (i, s)
  | none =>
    let p := constructor s.world
    (p.1, { s with world := p.2, registries := s.store r name p.1 })

/-- Modelled from the spec: `Register(name, instance)`, which "fails if name
already used". The result tells whether it failed; a failed call stores
nothing. -/
def Registry.Register {σ : Type} (s : System σ) (r : Nat) (name : String)
    (i : Instance σ) : Bool × System σ :=
  match s.registries r name with
  | some _ => (true, s)
  | none => (false, { s with registries := s.store r name i })

/-- The dynamic type of a gauge behind the interface, as the runtime prints it.
The interface values these files construct hold a `ComplexGaugeFloat64Snapshot`
or a `NilComplexGaugeFloat64` by value and the two struct types by pointer. -/
def ComplexGaugeFloat64.typeString {σ : Type} : ComplexGaugeFloat64 σ → String
  | ofSnapshot _ => "metrics.ComplexGaugeFloat64Snapshot"
  | ofNil _ => "metrics.NilComplexGaugeFloat64"
  | ofStandard _ => "*metrics.StandardComplexGaugeFloat64"
  | ofFunctional _ => "*metrics.FunctionalComplexGaugeFloat64"

namespace runtime

/-- The text of the `*runtime.TypeAssertionError` a failed assertion to an
interface type panics with: the dynamic type found, the interface type
asserted, and the first method of the interface the dynamic type lacks. -/
def TypeAssertionError (concrete asserted missingMethod : String) : String :=
  "interface conversion: " ++ concrete ++ " is not " ++ asserted
    ++ ": missing method " ++ missingMethod

end runtime

/-- The type assertion `.(ComplexCounter)`: it yields the counter when the
instance is one; a gauge has none of the methods Clear, Count, Dec and Inc,
so the assertion panics with a runtime error that names the gauge's dynamic
type and the first missing method, Clear. -/
def Instance.assertComplexCounter {σ : Type} : Instance σ → Outcome ComplexCounter
  | counter c => .returns c
  | gauge g =>
    .panics (runtime.TypeAssertionError g.typeString "metrics.ComplexCounter" "Clear")

/-- GetOrRegisterComplexCounter returns an existing ComplexCounter or
constructs and registers a new StandardCounter. -/
def GetOrRegisterComplexCounter {σ : Type} (s : System σ) (name : String)
    (r : Option Nat) : Outcome ComplexCounter × System σ :=
  let p := Registry.GetOrRegister s (s.registry r) name
    (fun w => (Instance.counter (NewComplexCounter w).1, (NewComplexCounter w).2))
  (p.1.assertComplexCounter, p.2)

/-- NewRegisteredComplexCounter constructs and registers a new
StandardComplexCounter; what `Register` returns is discarded. -/
def NewRegisteredComplexCounter {σ : Type} (s : System σ) (name : String)
    (r : Option Nat) : ComplexCounter × System σ :=
  let c := NewComplexCounter s.world
  let q := Registry.Register { s with world := c.2 } (s.registry r) name (Instance.counter c.1)
  (c.1, q.2)

/-- A system with metrics enabled, nothing allocated and every registry
empty; the default registry is the one at address 0. -/
def System.empty {σ : Type} (e : σ) : System σ :=
  { world := World.empty e, registries := fun _ _ => none, DefaultRegistry := 0 }

/-- The empty system after a no-op gauge has been stored under "x" in the
registry at address 0. -/
def System.withGauge : System Unit :=
  { System.empty () with
    registries := (System.empty ()).store 0 "x" (Instance.gauge (.ofNil {})) }

/-! ## Lemmas on wrapping arithmetic -/

theorem wrapInt64_isInt64 (x : Int) : isInt64 (wrapInt64 x) := by
  unfold isInt64 wrapInt64 MinInt64 MaxInt64
  omega

theorem wrapInt64_of_isInt64 (x : Int) (h : isInt64 x) : wrapInt64 x = x := by
  unfold isInt64 MinInt64 MaxInt64 at h
  unfold wrapInt64
  omega

theorem wrapInt64_add_left (a b : Int) :
    wrapInt64 (wrapInt64 a + b) = wrapInt64 (a + b) := by
  unfold wrapInt64
  omega

theorem wrapInt64_add_negInt64 (a b : Int) :
    wrapInt64 (a + negInt64 b) = wrapInt64 (a - b) := by
  unfold negInt64 wrapInt64
  omega

theorem count_Inc {σ : Type} (w : World σ) (c : StandardComplexCounter) (i : Int) :
    StandardComplexCounter.Count (StandardComplexCounter.Inc w c i) c
      = wrapInt64 (StandardComplexCounter.Count w c + i) := by
  simp [StandardComplexCounter.Count, StandardComplexCounter.Inc, atomic.LoadInt64,
    atomic.AddInt64]

theorem count_Dec {σ : Type} (w : World σ) (c : StandardComplexCounter) (i : Int) :
    StandardComplexCounter.Count (StandardComplexCounter.Dec w c i) c
      = wrapInt64 (StandardComplexCounter.Count w c - i) := by
  simp [StandardComplexCounter.Count, StandardComplexCounter.Dec, atomic.LoadInt64,
    atomic.AddInt64, wrapInt64_add_negInt64]

theorem count_Clear {σ : Type} (w : World σ) (c : StandardComplexCounter) :
    StandardComplexCounter.Count (StandardComplexCounter.Clear w c) c = 0 := by
  simp [StandardComplexCounter.Count, StandardComplexCounter.Clear, atomic.LoadInt64,
    atomic.StoreInt64]

theorem performCalls_cons {σ : Type} (c : ComplexCounter) (w : World σ)
    (k : CounterCall) (ks : List CounterCall) :
    performCalls c w (k :: ks) = performCalls c (CounterCall.perform c w k) ks := rfl

/-- Inc and Dec calls on a counter whose count is an `int64` value leave it at
the wrapped sum of that value and the signed deltas. -/
theorem count_performCalls {σ : Type} (c : StandardComplexCounter)
    (calls : List CounterCall) (h : calls.all CounterCall.isIncDec = true) :
    ∀ w : World σ, isInt64 (StandardComplexCounter.Count w c) →
      StandardComplexCounter.Count (performCalls (.ofStandard c) w calls) c
        = wrapInt64 (StandardComplexCounter.Count w c
            + (calls.map CounterCall.delta).sum) := by
  induction calls with
  | nil =>
    intro w hw
    simp [performCalls, wrapInt64_of_isInt64 _ hw]
  | cons k ks ih =>
    intro w hw
    rw [List.all_cons, Bool.and_eq_true] at h
    rw [performCalls_cons]
    cases k with
    | Clear => simp [CounterCall.isIncDec] at h
    | Dec i =>
      have hc : StandardComplexCounter.Count
          (CounterCall.perform (.ofStandard c) w (.Dec i)) c
          = wrapInt64 (StandardComplexCounter.Count w c - i) := count_Dec w c i
      rw [ih h.2 _ (by rw [hc]; exact wrapInt64_isInt64 _), hc, wrapInt64_add_left]
      simp only [List.map_cons, List.sum_cons, CounterCall.delta]
      congr 1; ring
    | Inc i =>
      have hc : StandardComplexCounter.Count
          (CounterCall.perform (.ofStandard c) w (.Inc i)) c
          = wrapInt64 (StandardComplexCounter.Count w c + i) := count_Inc w c i
      rw [ih h.2 _ (by rw [hc]; exact wrapInt64_isInt64 _), hc, wrapInt64_add_left]
      simp only [List.map_cons, List.sum_cons, CounterCall.delta]
      congr 1; ring

/-! ## Lemmas on the binary64 representation -/

theorem Float64frombits_Float64bits (v : Float64) :
    math.Float64frombits (math.Float64bits v) = v := by
  obtain ⟨s, e, m, he, hm⟩ := v
  simp only [math.Float64frombits, math.Float64bits, Float64.mk.injEq]
  cases s
  · refine ⟨?_, ?_, ?_⟩
    · simp only [Bool.false_eq_true, if_false, decide_eq_false_iff_not]; omega
    · simp only [Bool.false_eq_true, if_false]; omega
    · simp only [Bool.false_eq_true, if_false]; omega
  · refine ⟨?_, ?_, ?_⟩
    · simp only [if_true, decide_eq_true_eq]; omega
    · simp only [if_true]; omega
    · simp only [if_true]; omega

theorem Float64bits_lt (v : Float64) : math.Float64bits v < 18446744073709551616 := by
  obtain ⟨s, e, m, he, hm⟩ := v
  simp only [math.Float64bits]
  split <;> omega

theorem Float64bits_injective (u v : Float64)
    (h : math.Float64bits u = math.Float64bits v) : u = v := by
  rw [← Float64frombits_Float64bits u, ← Float64frombits_Float64bits v, h]

theorem value_Update {σ : Type} (w : World σ) (g : StandardComplexGaugeFloat64)
    (v : Float64) :
    (StandardComplexGaugeFloat64.Value (StandardComplexGaugeFloat64.Update w g v).2 g).1
      = v := by
  simp [StandardComplexGaugeFloat64.Value, StandardComplexGaugeFloat64.Update,
    atomic.LoadUint64, atomic.StoreUint64, Float64frombits_Float64bits]

theorem performUpdates_standard_returns {σ : Type} (g : StandardComplexGaugeFloat64)
    (vs : List Float64) :
    ∀ w : World σ, (performUpdates (.ofStandard g) w vs).1 = .returns () := by
  induction vs with
  | nil => intro w; rfl
  | cons v vs ih => intro w; exact ih _

theorem performUpdates_nil_gauge {σ : Type} (n : NilComplexGaugeFloat64)
    (vs : List Float64) (w : World σ) :
    performUpdates (.ofNil n) w vs = (.returns (), w) := by
  induction vs with
  | nil => rfl
  | cons v vs ih => exact ih

theorem performValues_functional {σ : Type} (f : Callback σ) (n : Nat) :
    ∀ w : World σ, performValues (.ofFunctional ⟨f⟩) n w
      = (f.produced n w.env,
          { w with env := f.envAfter n w.env, calls := w.calls + n }) := by
  induction n with
  | zero => intro w; rfl
  | succ n ih =>
    intro w
    simp only [performValues, ih, ComplexGaugeFloat64.Value,
      FunctionalComplexGaugeFloat64.Value, Callback.call, Callback.produced,
      Callback.envAfter, Prod.mk.injEq, true_and, World.mk.injEq]
    omega

theorem produced_getElem {σ : Type} (f : Callback σ) (n : Nat) :
    ∀ (e : σ) (k : Nat), (f.produced n e)[k]?
      = if k < n then some (f (f.envAfter k e)).1 else none := by
  induction n with
  | zero => intro e k; simp [Callback.produced]
  | succ n ih =>
    intro e k
    cases k with
    | zero => simp [Callback.produced, Callback.envAfter]
    | succ k => simp [Callback.produced, Callback.envAfter, ih]

theorem performValues_snapshot {σ : Type} (s : ComplexGaugeFloat64Snapshot) (n : Nat)
    (w : World σ) :
    performValues (.ofSnapshot s) n w = (List.replicate n s.val, w) := by
  induction n with
  | zero => rfl
  | succ n ih =>
    simp only [performValues, ComplexGaugeFloat64.Value, ComplexGaugeFloat64Snapshot.Value,
      ih, List.replicate_succ]

/-! ## Lemmas on interleaved increments -/

theorem sum_done_step {n : Nat} (d : Fin n → Nat) (t : Fin n) :
    (∑ x : Fin n, (if x = t then d t + 1 else d x)) = (∑ x : Fin n, d x) + 1 := by
  have h : ∀ x : Fin n, (if x = t then d t + 1 else d x) = d x + (if x = t then 1 else 0) := by
    intro x
    by_cases hx : x = t
    · simp [hx]
    · simp [hx]
  simp only [h, Finset.sum_add_distrib, Finset.sum_ite_eq', Finset.mem_univ, if_true]

/-- Along every schedule the count stays the wrapped number of iterations
completed by all threads together. -/
theorem IncThreads.run_count {σ : Type} {n : Nat} (c : StandardComplexCounter) (m : Nat)
    (schedule : List (Fin n)) :
    ∀ cfg : IncThreads σ n,
      StandardComplexCounter.Count cfg.world c
          = wrapInt64 ((∑ t : Fin n, cfg.done t : Nat) : Int) →
      StandardComplexCounter.Count (IncThreads.run (.ofStandard c) m cfg schedule).world c
          = wrapInt64 ((∑ t : Fin n,
              (IncThreads.run (.ofStandard c) m cfg schedule).done t : Nat) : Int) := by
  induction schedule with
  | nil => intro cfg h; exact h
  | cons t ts ih =>
    intro cfg h
    show StandardComplexCounter.Count
      (IncThreads.run (.ofStandard c) m (IncThreads.step (.ofStandard c) m cfg t) ts).world c = _
    apply ih
    unfold IncThreads.step
    split
    · show StandardComplexCounter.Count (StandardComplexCounter.Inc cfg.world c 1) c = _
      rw [count_Inc, h, wrapInt64_add_left, sum_done_step]
      push_cast
      rfl
    · exact h

theorem IncThreads.sum_done_finished {σ : Type} {n : Nat} (m : Nat) (cfg : IncThreads σ n)
    (h : IncThreads.finished m cfg) : (∑ t : Fin n, cfg.done t) = n * m := by
  unfold IncThreads.finished at h
  simp [h]

theorem IncThreads.run_append {σ : Type} {n : Nat} (c : ComplexCounter) (m : Nat)
    (cfg : IncThreads σ n) (s1 s2 : List (Fin n)) :
    IncThreads.run c m cfg (s1 ++ s2) = IncThreads.run c m (IncThreads.run c m cfg s1) s2 := by
  simp [IncThreads.run, List.foldl_append]

theorem IncThreads.run_replicate_done {σ : Type} {n : Nat} (c : ComplexCounter) (m : Nat)
    (t : Fin n) (k : Nat) :
    ∀ cfg : IncThreads σ n, cfg.done t ≤ m →
      (IncThreads.run c m cfg (List.replicate k t)).done
        = fun x => if x = t then min m (cfg.done t + k) else cfg.done x := by
  induction k with
  | zero =>
    intro cfg h
    funext x
    by_cases hx : x = t
    · simp [IncThreads.run, hx, h]
    · simp [IncThreads.run, hx]
  | succ k ih =>
    intro cfg h
    show (IncThreads.run c m (IncThreads.step c m cfg t) (List.replicate k t)).done = _
    by_cases hlt : cfg.done t < m
    · have hs : (IncThreads.step c m cfg t).done
          = fun x => if x = t then cfg.done t + 1 else cfg.done x := by
        simp [IncThreads.step, hlt]
      rw [ih _ (by rw [hs]; simp; omega), hs]
      funext x
      by_cases hx : x = t
      · simp [hx]; omega
      · simp [hx]
    · have hs : IncThreads.step c m cfg t = cfg := by simp [IncThreads.step, hlt]
      rw [hs, ih cfg h]
      funext x
      by_cases hx : x = t
      · simp [hx]; omega
      · simp [hx]

theorem IncThreads.run_oneByOne_done {σ : Type} {n : Nat} (c : ComplexCounter) (m : Nat)
    (l : List (Fin n)) :
    ∀ cfg : IncThreads σ n, (∀ x, cfg.done x ≤ m) →
      (IncThreads.run c m cfg (IncThreads.oneByOne m l)).done
        = fun x => if x ∈ l then m else cfg.done x := by
  induction l with
  | nil => intro cfg _; simp [IncThreads.oneByOne, IncThreads.run]
  | cons t l ih =>
    intro cfg h
    have h1 := IncThreads.run_replicate_done c m t m cfg (h t)
    rw [IncThreads.oneByOne, IncThreads.run_append, ih _ (by
      intro x; rw [h1]; by_cases hx : x = t
      · simp [hx]
      · simp [hx, h x]), h1]
    funext x
    by_cases hx : x = t
    · simp [hx]
    · by_cases hl : x ∈ l
      · simp [hx, hl]
      · simp [hx, hl]

/-- Some schedule lets all threads complete: running them one after the
other does. -/
theorem IncThreads.finished_oneByOne {σ : Type} (n m : Nat) (c : ComplexCounter)
    (w : World σ) :
    IncThreads.finished m
      (IncThreads.run c m (IncThreads.start w n) (IncThreads.oneByOne m (List.finRange n))) := by
  intro t
  rw [IncThreads.run_oneByOne_done c m _ _ (by intro x; simp [IncThreads.start])]
  simp [List.mem_finRange]

/-! ## Theorems on complex_counter.go -/

/-- C1: on a live StandardComplexCounter whose count is 0, after any finite
sequence of Inc(d) and Dec(d) calls performed in order, Count() is the sum of
the signed deltas (+d for Inc, -d for Dec) reduced mod 2^64 and read as a
two's-complement int64, and so is an int64 value. -/
theorem C1_count_is_wrapped_sum {σ : Type} (w : World σ) (c : StandardComplexCounter)
    (calls : List CounterCall) (hcalls : calls.all CounterCall.isIncDec = true)
    (hzero : StandardComplexCounter.Count w c = 0) :
    ComplexCounter.Count (performCalls (.ofStandard c) w calls) (.ofStandard c)
        = wrapInt64 (calls.map CounterCall.delta).sum
      ∧ isInt64 (ComplexCounter.Count (performCalls (.ofStandard c) w calls) (.ofStandard c)) := by
  have hw : isInt64 (StandardComplexCounter.Count w c) := by rw [hzero]; decide
  have h := count_performCalls c calls hcalls w hw
  rw [hzero, zero_add] at h
  constructor
  · exact h
  · show isInt64 (StandardComplexCounter.Count _ c)
    rw [h]; exact wrapInt64_isInt64 _

/-- C1, the scenario: a counter newly constructed with metrics enabled is the
StandardComplexCounter at address 0 and starts at 0; after Inc(5), Inc(3),
Dec(2) its Count() is the wrapped sum of 5, 3 and -2, which is 6. -/
theorem C1_count_is_wrapped_sum_witness :
    (NewComplexCounter (World.empty ())).1 = .ofStandard ⟨0⟩
      ∧ ([.Inc 5, .Inc 3, .Dec 2] : List CounterCall).all CounterCall.isIncDec = true
      ∧ StandardComplexCounter.Count (NewComplexCounter (World.empty ())).2 ⟨0⟩ = 0
      ∧ (ComplexCounter.Count
            (performCalls (.ofStandard ⟨0⟩) (NewComplexCounter (World.empty ())).2
              [.Inc 5, .Inc 3, .Dec 2]) (.ofStandard ⟨0⟩)
          = wrapInt64 (([.Inc 5, .Inc 3, .Dec 2] : List CounterCall).map CounterCall.delta).sum
        ∧ isInt64 (ComplexCounter.Count
            (performCalls (.ofStandard ⟨0⟩) (NewComplexCounter (World.empty ())).2
              [.Inc 5, .Inc 3, .Dec 2]) (.ofStandard ⟨0⟩)))
      ∧ wrapInt64 (([.Inc 5, .Inc 3, .Dec 2] : List CounterCall).map CounterCall.delta).sum = 6 :=
  ⟨by decide, by decide, by decide,
    C1_count_is_wrapped_sum (NewComplexCounter (World.empty ())).2 ⟨0⟩
      [.Inc 5, .Inc 3, .Dec 2] (by decide) (by decide),
    by decide⟩

/-- C5: in every state of a live StandardComplexCounter, and so after any
history of Inc, Dec and Clear calls, Clear() followed immediately by Count()
returns 0; Clear changes nothing but that counter's word. -/
theorem C5_clear_then_count_is_zero {σ : Type} (w : World σ) (c : StandardComplexCounter)
    (history : List CounterCall) :
    ComplexCounter.Count (ComplexCounter.Clear w (.ofStandard c)) (.ofStandard c) = 0
      ∧ ComplexCounter.Count
          (ComplexCounter.Clear (performCalls (.ofStandard c) w history) (.ofStandard c))
          (.ofStandard c) = 0
      ∧ (∀ a, a ≠ c.addr →
          (ComplexCounter.Clear w (.ofStandard c)).int64s a = w.int64s a) := by
  refine ⟨count_Clear w c, count_Clear _ c, ?_⟩
  intro a ha
  simp [ComplexCounter.Clear, StandardComplexCounter.Clear, atomic.StoreInt64, ha]

/-- C6: for every live counter value and every delta, Inc(delta) is a total
step (it has no panic or error path) that leaves the counter at the old count
plus delta wrapped to signed 64 bits: the result is an int64 value, it is the
exact sum whenever the sum is an int64 value, and Inc(1) at MaxInt64 yields
MinInt64. -/
theorem C6_inc_wraps {σ : Type} (w : World σ) (c : StandardComplexCounter) (delta : Int) :
    ComplexCounter.Count (ComplexCounter.Inc w (.ofStandard c) delta) (.ofStandard c)
        = wrapInt64 (ComplexCounter.Count w (.ofStandard c) + delta)
      ∧ isInt64 (ComplexCounter.Count (ComplexCounter.Inc w (.ofStandard c) delta)
          (.ofStandard c))
      ∧ (if isInt64 (ComplexCounter.Count w (.ofStandard c) + delta) then
          ComplexCounter.Count (ComplexCounter.Inc w (.ofStandard c) delta) (.ofStandard c)
            = ComplexCounter.Count w (.ofStandard c) + delta
         else True)
      ∧ ComplexCounter.Count
          (ComplexCounter.Inc
            { w with int64s := atomic.StoreInt64 w.int64s c.addr MaxInt64 }
            (.ofStandard c) 1)
          (.ofStandard c) = MinInt64 := by
  have h : ComplexCounter.Count (ComplexCounter.Inc w (.ofStandard c) delta) (.ofStandard c)
      = wrapInt64 (ComplexCounter.Count w (.ofStandard c) + delta) := count_Inc w c delta
  refine ⟨h, ?_, ?_, ?_⟩
  · rw [h]; exact wrapInt64_isInt64 _
  · split
    · next hs => rw [h]; exact wrapInt64_of_isInt64 _ hs
    · trivial
  · have h1 := count_Inc { w with int64s := atomic.StoreInt64 w.int64s c.addr MaxInt64 } c 1
    have h2 : StandardComplexCounter.Count
        { w with int64s := atomic.StoreInt64 w.int64s c.addr MaxInt64 } c = MaxInt64 := by
      simp [StandardComplexCounter.Count, atomic.LoadInt64, atomic.StoreInt64]
    rw [h2] at h1
    exact h1.trans (by decide)

/-- C7: for every live counter state and every delta, Dec(delta) leaves the
world exactly as Inc(-delta) does, where the negation wraps, and exactly as
subtracting delta from the stored count with wraparound does; the negation
of MinInt64 is MinInt64 itself, and there Dec still agrees with both. -/
theorem C7_dec_is_inc_of_negation {σ : Type} (w : World σ) (c : StandardComplexCounter)
    (delta : Int) :
    ComplexCounter.Dec w (.ofStandard c) delta
        = ComplexCounter.Inc w (.ofStandard c) (negInt64 delta)
      ∧ ComplexCounter.Dec w (.ofStandard c) delta = specDec w c delta
      ∧ negInt64 MinInt64 = MinInt64
      ∧ ComplexCounter.Dec w (.ofStandard c) MinInt64
          = ComplexCounter.Inc w (.ofStandard c) MinInt64 := by
  have hneg : negInt64 MinInt64 = MinInt64 := by decide
  refine ⟨rfl, ?_, hneg, ?_⟩
  · simp only [ComplexCounter.Dec, StandardComplexCounter.Dec, specDec, atomic.AddInt64]
    congr 1
    funext a
    split
    · rw [wrapInt64_add_negInt64]
    · rfl
  · show StandardComplexCounter.Dec w c MinInt64 = StandardComplexCounter.Inc w c MinInt64
    simp only [StandardComplexCounter.Dec, StandardComplexCounter.Inc, hneg]

/-- C8: on a NilComplexCounter, Count() returns 0 in every world, and any
finite sequence of Inc, Dec and Clear calls leaves the world unchanged, so
Count() is 0 before the calls, after every initial part of them, and after
all of them. -/
theorem C8_nil_counter_stays_zero {σ : Type} (w : World σ) (n : NilComplexCounter)
    (calls : List CounterCall) (k : Nat) :
    ComplexCounter.Count w (.ofNil n) = 0
      ∧ performCalls (.ofNil n) w (calls.take k) = w
      ∧ ComplexCounter.Count (performCalls (.ofNil n) w (calls.take k)) (.ofNil n) = 0
      ∧ performCalls (.ofNil n) w calls = w
      ∧ ComplexCounter.Count (performCalls (.ofNil n) w calls) (.ofNil n) = 0 := by
  have hall : ∀ l : List CounterCall, performCalls (.ofNil n) w l = w := by
    intro l
    induction l with
    | nil => rfl
    | cons x xs ih =>
      rw [performCalls_cons]
      cases x <;> exact ih
  exact ⟨rfl, hall _, rfl, hall _, rfl⟩

/-! ## Theorems on complex_gauge_float64.go -/

/-- C2: in every state of a live StandardComplexGaugeFloat64 and for every
float64 v (every NaN payload, both infinities and both zeros included),
Update(v) returns normally and Value() afterwards returns v itself, with the
same 64-bit pattern, whatever was stored before; Float64frombits undoes
Float64bits, whose results are 64-bit words that differ for different
values. -/
theorem C2_update_value_roundtrip {σ : Type} (w : World σ)
    (g : StandardComplexGaugeFloat64) (v : Float64) :
    (ComplexGaugeFloat64.Update w (.ofStandard g) v).1 = .returns ()
      ∧ (ComplexGaugeFloat64.Value
          (ComplexGaugeFloat64.Update w (.ofStandard g) v).2 (.ofStandard g)).1 = v
      ∧ math.Float64bits (ComplexGaugeFloat64.Value
          (ComplexGaugeFloat64.Update w (.ofStandard g) v).2 (.ofStandard g)).1
          = math.Float64bits v
      ∧ math.Float64frombits (math.Float64bits v) = v
      ∧ math.Float64bits v < 18446744073709551616
      ∧ (∀ u : Float64, math.Float64bits u = math.Float64bits v ↔ u = v) := by
  have h : (ComplexGaugeFloat64.Value
      (ComplexGaugeFloat64.Update w (.ofStandard g) v).2 (.ofStandard g)).1 = v :=
    value_Update w g v
  refine ⟨rfl, h, by rw [h], Float64frombits_Float64bits v, Float64bits_lt v, ?_⟩
  intro u
  exact ⟨Float64bits_injective u v, fun e => by rw [e]⟩

/-- C3: for every live StandardComplexGaugeFloat64 g, Snapshot() leaves the
world as it is and returns a ComplexGaugeFloat64Snapshot s whose Value() is
the value (and so the bit pattern) g.Value() has at that moment; after any
later sequence of g.Update calls, all of which return normally, s.Value()
still returns that value. Scenario: after Update(3.14), Value() == 3.14 and
Snapshot().Value() == 3.14. -/
theorem C3_snapshot_keeps_value {σ : Type} (w : World σ)
    (g : StandardComplexGaugeFloat64) (later : List Float64) :
    ComplexGaugeFloat64.Snapshot w (.ofStandard g)
        = (.ofSnapshot ⟨(ComplexGaugeFloat64.Value w (.ofStandard g)).1⟩, w)
      ∧ (ComplexGaugeFloat64.Value (ComplexGaugeFloat64.Snapshot w (.ofStandard g)).2
          (ComplexGaugeFloat64.Snapshot w (.ofStandard g)).1).1
          = (ComplexGaugeFloat64.Value w (.ofStandard g)).1
      ∧ (performUpdates (.ofStandard g)
          (ComplexGaugeFloat64.Snapshot w (.ofStandard g)).2 later).1 = .returns ()
      ∧ (ComplexGaugeFloat64.Value
          (performUpdates (.ofStandard g)
            (ComplexGaugeFloat64.Snapshot w (.ofStandard g)).2 later).2
          (ComplexGaugeFloat64.Snapshot w (.ofStandard g)).1).1
          = (ComplexGaugeFloat64.Value w (.ofStandard g)).1
      ∧ Float64.eq
          (ComplexGaugeFloat64.Value
            (ComplexGaugeFloat64.Update w (.ofStandard g) Float64.c3_14).2
            (.ofStandard g)).1
          Float64.c3_14 = true
      ∧ Float64.eq
          (ComplexGaugeFloat64.Value
            (ComplexGaugeFloat64.Snapshot
              (ComplexGaugeFloat64.Update w (.ofStandard g) Float64.c3_14).2
              (.ofStandard g)).2
            (ComplexGaugeFloat64.Snapshot
              (ComplexGaugeFloat64.Update w (.ofStandard g) Float64.c3_14).2
              (.ofStandard g)).1).1
          Float64.c3_14 = true := by
  have h : (ComplexGaugeFloat64.Value
      (ComplexGaugeFloat64.Update w (.ofStandard g) Float64.c3_14).2 (.ofStandard g)).1
      = Float64.c3_14 := value_Update w g Float64.c3_14
  refine ⟨rfl, rfl, performUpdates_standard_returns g later w, rfl, ?_, ?_⟩
  · rw [h]; decide
  · show Float64.eq (ComplexGaugeFloat64.Value
      (ComplexGaugeFloat64.Update w (.ofStandard g) Float64.c3_14).2 (.ofStandard g)).1
      Float64.c3_14 = true
    rw [h]; decide

/-- C4: for every ComplexGaugeFloat64Snapshot, every
FunctionalComplexGaugeFloat64 (whatever its callback) and every float64 v,
Update(v) panics with its message and never returns normally; the world is
left as it was, so in the functional case the callback has not been invoked. -/
theorem C4_update_panics {σ : Type} (w : World σ) (s : ComplexGaugeFloat64Snapshot)
    (f : FunctionalComplexGaugeFloat64 σ) (v : Float64) :
    ComplexGaugeFloat64.Update w (.ofSnapshot s) v
        = (.panics "Update called on a ComplexGaugeFloat64Snapshot", w)
      ∧ ComplexGaugeFloat64.Update w (.ofFunctional f) v
        = (.panics "Update called on a FunctionalComplexGaugeFloat64", w)
      ∧ (∀ u : Unit, (ComplexGaugeFloat64.Update w (.ofSnapshot s) v).1 ≠ .returns u)
      ∧ (∀ u : Unit, (ComplexGaugeFloat64.Update w (.ofFunctional f) v).1 ≠ .returns u)
      ∧ (ComplexGaugeFloat64.Update w (.ofFunctional f) v).2.calls = w.calls
      ∧ (ComplexGaugeFloat64.Update w (.ofFunctional f) v).2.env = w.env := by
  refine ⟨rfl, rfl, ?_, ?_, rfl, rfl⟩
  · intro u h
    simp [ComplexGaugeFloat64.Update, ComplexGaugeFloat64Snapshot.Update] at h
  · intro u h
    simp [ComplexGaugeFloat64.Update, FunctionalComplexGaugeFloat64.Update] at h

/-- C9: on a NilComplexGaugeFloat64, any finite sequence of Update calls
returns normally and leaves the world unchanged, Value() returns 0.0 (the
all-zero bit pattern) afterwards, and Snapshot() returns a
NilComplexGaugeFloat64, not a ComplexGaugeFloat64Snapshot, on which Update
again returns normally and changes nothing. -/
theorem C9_nil_gauge_is_inert {σ : Type} (w : World σ) (n : NilComplexGaugeFloat64)
    (vs : List Float64) (v : Float64) :
    performUpdates (.ofNil n) w vs = (.returns (), w)
      ∧ ComplexGaugeFloat64.Value (performUpdates (.ofNil n) w vs).2 (.ofNil n)
        = (Float64.zero, w)
      ∧ math.Float64bits Float64.zero = 0
      ∧ ComplexGaugeFloat64.Snapshot (performUpdates (.ofNil n) w vs).2 (.ofNil n)
        = (.ofNil {}, w)
      ∧ (∀ s : ComplexGaugeFloat64Snapshot,
          (ComplexGaugeFloat64.Snapshot w (.ofNil n)).1 ≠ .ofSnapshot s)
      ∧ ComplexGaugeFloat64.Update w (ComplexGaugeFloat64.Snapshot w (.ofNil n)).1 v
        = (.returns (), w) := by
  have h := performUpdates_nil_gauge n vs w
  refine ⟨h, by rw [h]; rfl, by decide, by rw [h]; rfl, ?_, rfl⟩
  intro s hs
  simp [ComplexGaugeFloat64.Snapshot, NilComplexGaugeFloat64.Snapshot] at hs

/-- C10: for every callback f wrapped in a FunctionalComplexGaugeFloat64, a
Value() call invokes f exactly once (one more invocation is counted and the
environment is the one f left) and returns what that invocation returned; so
n consecutive Value() calls return the first n values f produces, the k-th
call returning the value of the k-th invocation, with n invocations made.
Scenario: a callback yielding 42.0 then 43.0 makes two consecutive Value()
calls return 42.0 then 43.0. -/
theorem C10_functional_value_invokes_callback {σ : Type} (w : World σ) (f : Callback σ)
    (n k : Nat) :
    ComplexGaugeFloat64.Value w (.ofFunctional ⟨f⟩)
        = ((f w.env).1, { w with env := (f w.env).2, calls := w.calls + 1 })
      ∧ performValues (.ofFunctional ⟨f⟩) n w
        = (f.produced n w.env, { w with env := f.envAfter n w.env, calls := w.calls + n })
      ∧ (performValues (.ofFunctional ⟨f⟩) n w).1[k]?
        = (if k < n then some (f (f.envAfter k w.env)).1 else none)
      ∧ (performValues (.ofFunctional ⟨callback42then43⟩) 2 (World.empty 0)).1
        = [Float64.c42, Float64.c43]
      ∧ (performValues (.ofFunctional ⟨callback42then43⟩) 2 (World.empty 0)).2.calls = 2 := by
  have h := performValues_functional f n w
  refine ⟨rfl, h, ?_, by decide, by decide⟩
  rw [h]
  exact produced_getElem f n w.env k

/-! ## Theorems on snapshots, construction and reads -/

/-- C11: for every callback f wrapped in a FunctionalComplexGaugeFloat64,
Snapshot() invokes f exactly once (one more invocation is counted and the
environment is the one f left) and returns a ComplexGaugeFloat64Snapshot
holding what that invocation returned; any number of later Value() calls on
the snapshot return that value and leave the world, invocation count
included, as it is, whatever f would return now. Scenario: the snapshot of
the 42.0-then-43.0 callback holds 42.0 and two later Value() calls on it
return 42.0, 42.0 with one invocation counted, while the gauge itself would
now return 43.0. -/
theorem C11_functional_snapshot_invokes_once {σ : Type} (w : World σ) (f : Callback σ)
    (n : Nat) (w2 : World σ) :
    ComplexGaugeFloat64.Snapshot w (.ofFunctional ⟨f⟩)
        = (.ofSnapshot ⟨(f w.env).1⟩,
            { w with env := (f w.env).2, calls := w.calls + 1 })
      ∧ ComplexGaugeFloat64.Value w2 (ComplexGaugeFloat64.Snapshot w (.ofFunctional ⟨f⟩)).1
        = ((f w.env).1, w2)
      ∧ performValues (ComplexGaugeFloat64.Snapshot w (.ofFunctional ⟨f⟩)).1 n
          (ComplexGaugeFloat64.Snapshot w (.ofFunctional ⟨f⟩)).2
        = (List.replicate n (f w.env).1,
            (ComplexGaugeFloat64.Snapshot w (.ofFunctional ⟨f⟩)).2)
      ∧ performValues
          (ComplexGaugeFloat64.Snapshot (World.empty 0) (.ofFunctional ⟨callback42then43⟩)).1 2
          (ComplexGaugeFloat64.Snapshot (World.empty 0) (.ofFunctional ⟨callback42then43⟩)).2
        = ([Float64.c42, Float64.c42],
            { World.empty 1 with calls := 1 })
      ∧ (ComplexGaugeFloat64.Value
          (ComplexGaugeFloat64.Snapshot (World.empty 0) (.ofFunctional ⟨callback42then43⟩)).2
          (.ofFunctional ⟨callback42then43⟩)).1 = Float64.c43 := by
  refine ⟨rfl, rfl, ?_, ?_, by decide⟩
  · exact performValues_snapshot ⟨(f w.env).1⟩ n _
  · exact performValues_snapshot ⟨Float64.c42⟩ 2 _

/-- C12: for every ComplexGaugeFloat64Snapshot s, Snapshot() returns s itself
and leaves the world as it is, so the Value() of the result is the Value()
of s, with the same bit pattern, and Snapshot applied any number of times in
a row still yields s. -/
theorem C12_snapshot_of_snapshot_is_itself {σ : Type} (w : World σ)
    (s : ComplexGaugeFloat64Snapshot) (n : Nat) :
    ComplexGaugeFloat64.Snapshot w (.ofSnapshot s) = (.ofSnapshot s, w)
      ∧ ComplexGaugeFloat64.Value (ComplexGaugeFloat64.Snapshot w (.ofSnapshot s)).2
          (ComplexGaugeFloat64.Snapshot w (.ofSnapshot s)).1
        = ComplexGaugeFloat64.Value w (.ofSnapshot s)
      ∧ math.Float64bits (ComplexGaugeFloat64.Value
          (ComplexGaugeFloat64.Snapshot w (.ofSnapshot s)).2
          (ComplexGaugeFloat64.Snapshot w (.ofSnapshot s)).1).1
        = math.Float64bits (ComplexGaugeFloat64.Value w (.ofSnapshot s)).1
      ∧ performSnapshots n w (.ofSnapshot s) = (.ofSnapshot s, w)
      ∧ ComplexGaugeFloat64.Snapshot (performSnapshots n w (.ofSnapshot s)).2
          (performSnapshots n w (.ofSnapshot s)).1
        = performSnapshots n w (.ofSnapshot s) := by
  have h : performSnapshots n w (.ofSnapshot s) = (.ofSnapshot s, w) := by
    induction n with
    | zero => rfl
    | succ n ih => exact ih
  exact ⟨rfl, rfl, rfl, h, by rw [h]; rfl⟩

/-- C13: NewComplexCounter() returns a NilComplexCounter exactly when
UseNilMetrics is true at the time of the call, and then changes nothing;
otherwise it returns the StandardComplexCounter at a newly allocated address,
whose Count() is 0, and changes no other word. -/
theorem C13_new_counter_follows_flag {σ : Type} (w : World σ) :
    ((NewComplexCounter w).1 = .ofNil {} ↔ w.UseNilMetrics = true)
      ∧ (if w.UseNilMetrics = true then
          NewComplexCounter w = (.ofNil {}, w)
        else
          (NewComplexCounter w).1 = .ofStandard ⟨w.next⟩
            ∧ ComplexCounter.Count (NewComplexCounter w).2 (NewComplexCounter w).1 = 0
            ∧ (NewComplexCounter w).2.next = w.next + 1
            ∧ (∀ a, a ≠ w.next → (NewComplexCounter w).2.int64s a = w.int64s a)) := by
  cases hf : w.UseNilMetrics
  · refine ⟨?_, ?_⟩
    · simp [NewComplexCounter, hf]
    · simp only [Bool.false_eq_true, if_false]
      refine ⟨?_, ?_, ?_, ?_⟩
      · simp [NewComplexCounter, hf]
      · simp [NewComplexCounter, hf, ComplexCounter.Count, StandardComplexCounter.Count,
          atomic.LoadInt64]
      · simp [NewComplexCounter, hf]
      · intro a ha
        simp [NewComplexCounter, hf, ha]
  · refine ⟨?_, ?_⟩
    · simp [NewComplexCounter, hf]
    · simp [NewComplexCounter, hf]

/-- C14: NewComplexGaugeFloat64() returns a NilComplexGaugeFloat64 exactly
when UseNilMetrics is true and otherwise the StandardComplexGaugeFloat64 at a
newly allocated address; NewFunctionalComplexGaugeFloat64(f) returns a
NilComplexGaugeFloat64 exactly when UseNilMetrics is true, without invoking
f, and then Value() is 0.0 and Update returns normally; otherwise it returns
the FunctionalComplexGaugeFloat64 holding f, without invoking f, and its
Value() is one call of f. -/
theorem C14_new_gauge_follows_flag {σ : Type} (w : World σ) (f : Callback σ) (v : Float64) :
    (((NewComplexGaugeFloat64 w).1 : ComplexGaugeFloat64 σ) = .ofNil {}
        ↔ w.UseNilMetrics = true)
      ∧ ((NewFunctionalComplexGaugeFloat64 w f).1 = .ofNil {} ↔ w.UseNilMetrics = true)
      ∧ (NewFunctionalComplexGaugeFloat64 w f).2 = w
      ∧ (if w.UseNilMetrics = true then
          (NewComplexGaugeFloat64 w : ComplexGaugeFloat64 σ × World σ) = (.ofNil {}, w)
            ∧ ComplexGaugeFloat64.Value (NewFunctionalComplexGaugeFloat64 w f).2
                (NewFunctionalComplexGaugeFloat64 w f).1 = (Float64.zero, w)
            ∧ ComplexGaugeFloat64.Update (NewFunctionalComplexGaugeFloat64 w f).2
                (NewFunctionalComplexGaugeFloat64 w f).1 v = (.returns (), w)
        else
          ((NewComplexGaugeFloat64 w).1 : ComplexGaugeFloat64 σ) = .ofStandard ⟨w.next⟩
            ∧ (NewFunctionalComplexGaugeFloat64 w f).1 = .ofFunctional ⟨f⟩
            ∧ ComplexGaugeFloat64.Value (NewFunctionalComplexGaugeFloat64 w f).2
                (NewFunctionalComplexGaugeFloat64 w f).1 = f.call w) := by
  cases hf : w.UseNilMetrics
  · simp [NewComplexGaugeFloat64, NewFunctionalComplexGaugeFloat64, hf,
      ComplexGaugeFloat64.Value, FunctionalComplexGaugeFloat64.Value]
  · simp [NewComplexGaugeFloat64, NewFunctionalComplexGaugeFloat64, hf,
      ComplexGaugeFloat64.Value, NilComplexGaugeFloat64.Value,
      ComplexGaugeFloat64.Update, NilComplexGaugeFloat64.Update]

/-- C18: with UseNilMetrics false, the gauge NewComplexGaugeFloat64() returns
is a StandardComplexGaugeFloat64 whose stored word is 0, so before any Update
its Value() is +0.0, the value with the all-zero bit pattern and not -0.0,
and the Value() of its Snapshot() is +0.0 as well. -/
theorem C18_new_gauge_is_positive_zero {σ : Type} (w : World σ)
    (hlive : w.UseNilMetrics = false) :
    (NewComplexGaugeFloat64 w).1 = .ofStandard ⟨w.next⟩
      ∧ (NewComplexGaugeFloat64 w).2.uint64s w.next = 0
      ∧ (ComplexGaugeFloat64.Value (NewComplexGaugeFloat64 w).2
          (NewComplexGaugeFloat64 w).1).1 = Float64.zero
      ∧ math.Float64bits (ComplexGaugeFloat64.Value (NewComplexGaugeFloat64 w).2
          (NewComplexGaugeFloat64 w).1).1 = 0
      ∧ (ComplexGaugeFloat64.Value (NewComplexGaugeFloat64 w).2
          (NewComplexGaugeFloat64 w).1).1.sign = false
      ∧ (ComplexGaugeFloat64.Value
          (ComplexGaugeFloat64.Snapshot (NewComplexGaugeFloat64 w).2
            (NewComplexGaugeFloat64 w).1).2
          (ComplexGaugeFloat64.Snapshot (NewComplexGaugeFloat64 w).2
            (NewComplexGaugeFloat64 w).1).1).1 = Float64.zero := by
  have hg : (NewComplexGaugeFloat64 w : ComplexGaugeFloat64 σ × World σ)
      = (.ofStandard ⟨w.next⟩,
          { w with uint64s := fun a => if a = w.next then 0 else w.uint64s a,
                   next := w.next + 1 }) := by
    simp [NewComplexGaugeFloat64, hlive]
  have hz : math.Float64frombits 0 = Float64.zero := by decide
  rw [hg]
  simp [ComplexGaugeFloat64.Value, StandardComplexGaugeFloat64.Value,
    ComplexGaugeFloat64.Snapshot, StandardComplexGaugeFloat64.Snapshot,
    ComplexGaugeFloat64Snapshot.Value, atomic.LoadUint64, hz]
  decide

/-- C18, at a concrete world: in the empty world, where metrics are enabled,
the new gauge is the one at address 0 and reads +0.0, directly and through
its snapshot. -/
theorem C18_new_gauge_is_positive_zero_witness :
    (World.empty ()).UseNilMetrics = false
      ∧ ((NewComplexGaugeFloat64 (World.empty ())).1 = .ofStandard ⟨(World.empty ()).next⟩
      ∧ (NewComplexGaugeFloat64 (World.empty ())).2.uint64s (World.empty ()).next = 0
      ∧ (ComplexGaugeFloat64.Value (NewComplexGaugeFloat64 (World.empty ())).2
          (NewComplexGaugeFloat64 (World.empty ())).1).1 = Float64.zero
      ∧ math.Float64bits (ComplexGaugeFloat64.Value (NewComplexGaugeFloat64 (World.empty ())).2
          (NewComplexGaugeFloat64 (World.empty ())).1).1 = 0
      ∧ (ComplexGaugeFloat64.Value (NewComplexGaugeFloat64 (World.empty ())).2
          (NewComplexGaugeFloat64 (World.empty ())).1).1.sign = false
      ∧ (ComplexGaugeFloat64.Value
          (ComplexGaugeFloat64.Snapshot (NewComplexGaugeFloat64 (World.empty ())).2
            (NewComplexGaugeFloat64 (World.empty ())).1).2
          (ComplexGaugeFloat64.Snapshot (NewComplexGaugeFloat64 (World.empty ())).2
            (NewComplexGaugeFloat64 (World.empty ())).1).1).1 = Float64.zero) :=
  ⟨rfl, C18_new_gauge_is_positive_zero (World.empty ()) rfl⟩

/-- C19: reads do not change state. On a live counter, Count() returns the
stored count and leaves the world as it is, so a second Count() right after
returns the same value; on a live gauge, Value() and Snapshot() leave the
world, and so the stored bit pattern, as it is, and Value() after Snapshot()
returns what Value() returned before it. -/
theorem C19_reads_leave_state {σ : Type} (w : World σ) (c : StandardComplexCounter)
    (g : StandardComplexGaugeFloat64) :
    (ComplexCounter.CountStep w (.ofStandard c)).1 = w.int64s c.addr
      ∧ (ComplexCounter.CountStep w (.ofStandard c)).2 = w
      ∧ (ComplexCounter.CountStep (ComplexCounter.CountStep w (.ofStandard c)).2
          (.ofStandard c)).1 = (ComplexCounter.CountStep w (.ofStandard c)).1
      ∧ (ComplexGaugeFloat64.Value w (.ofStandard g)).2 = w
      ∧ (ComplexGaugeFloat64.Snapshot w (.ofStandard g)).2 = w
      ∧ (ComplexGaugeFloat64.Snapshot w (.ofStandard g)).2.uint64s g.addr = w.uint64s g.addr
      ∧ (ComplexGaugeFloat64.Value (ComplexGaugeFloat64.Snapshot w (.ofStandard g)).2
          (.ofStandard g)).1 = (ComplexGaugeFloat64.Value w (.ofStandard g)).1
      ∧ (ComplexGaugeFloat64.Value (ComplexGaugeFloat64.Value w (.ofStandard g)).2
          (.ofStandard g)).1 = (ComplexGaugeFloat64.Value w (.ofStandard g)).1 :=
  ⟨rfl, rfl, rfl, rfl, rfl, rfl, rfl, rfl⟩

/-! ## Theorems on interleaved increments -/

/-- C15, as stated, fails at N = 2, M = 2^62: some interleaving lets both
threads complete all their Inc(1) calls on a counter that starts at 0, and
the final Count() is then MinInt64, not N*M = 2^63. -/
theorem C15_count_is_not_product_at_overflow :
    StandardComplexCounter.Count (World.empty ()) ⟨0⟩ = 0
      ∧ ∃ schedule : List (Fin 2),
          IncThreads.finished 4611686018427387904
            (IncThreads.run (.ofStandard ⟨0⟩) 4611686018427387904
              (IncThreads.start (World.empty ()) 2) schedule)
          ∧ ComplexCounter.Count
              (IncThreads.run (.ofStandard ⟨0⟩) 4611686018427387904
                (IncThreads.start (World.empty ()) 2) schedule).world (.ofStandard ⟨0⟩)
            = MinInt64
          ∧ ComplexCounter.Count
              (IncThreads.run (.ofStandard ⟨0⟩) 4611686018427387904
                (IncThreads.start (World.empty ()) 2) schedule).world (.ofStandard ⟨0⟩)
            ≠ 2 * 4611686018427387904 := by
  refine ⟨rfl, IncThreads.oneByOne 4611686018427387904 (List.finRange 2), ?_⟩
  have hfin := IncThreads.finished_oneByOne 2 4611686018427387904
    (ComplexCounter.ofStandard ⟨0⟩) (World.empty ())
  have hcount := IncThreads.run_count (σ := Unit) (n := 2) ⟨0⟩ 4611686018427387904
    (IncThreads.oneByOne 4611686018427387904 (List.finRange 2))
    (IncThreads.start (World.empty ()) 2) (by
      simp [IncThreads.start, StandardComplexCounter.Count, atomic.LoadInt64, World.empty]
      decide)
  rw [IncThreads.sum_done_finished _ _ hfin] at hcount
  have hval : ComplexCounter.Count
      (IncThreads.run (.ofStandard ⟨0⟩) 4611686018427387904
        (IncThreads.start (World.empty ()) 2)
        (IncThreads.oneByOne 4611686018427387904 (List.finRange 2))).world (.ofStandard ⟨0⟩)
      = MinInt64 := by
    show StandardComplexCounter.Count _ ⟨0⟩ = MinInt64
    rw [hcount]
    decide
  refine ⟨hfin, hval, ?_⟩
  rw [hval]
  decide

/-- C15, amended: for every N and M and every interleaving of N threads that
each call Inc(1) M times on one live StandardComplexCounter that starts at 0,
once all threads have completed the final Count() is N*M reduced mod 2^64
and read as an int64 (no update is lost), which is exactly N*M whenever N*M
is at most MaxInt64; and some interleaving does let all threads complete. -/
theorem C15_interleaved_incs_count_wrapped_product {σ : Type} (n m : Nat) (w : World σ)
    (c : StandardComplexCounter) (schedule : List (Fin n))
    (hzero : StandardComplexCounter.Count w c = 0)
    (hfinished : IncThreads.finished m
      (IncThreads.run (.ofStandard c) m (IncThreads.start w n) schedule)) :
    ComplexCounter.Count
        (IncThreads.run (.ofStandard c) m (IncThreads.start w n) schedule).world
        (.ofStandard c) = wrapInt64 ((n * m : Nat) : Int)
      ∧ (if ((n * m : Nat) : Int) ≤ MaxInt64 then
          ComplexCounter.Count
            (IncThreads.run (.ofStandard c) m (IncThreads.start w n) schedule).world
            (.ofStandard c) = ((n * m : Nat) : Int)
        else True)
      ∧ ∃ s : List (Fin n),
          IncThreads.finished m (IncThreads.run (.ofStandard c) m (IncThreads.start w n) s) := by
  have hcount := IncThreads.run_count c m schedule (IncThreads.start w n) (by
    show StandardComplexCounter.Count w c = _
    rw [hzero]
    simp [IncThreads.start]
    decide)
  rw [IncThreads.sum_done_finished _ _ hfinished] at hcount
  refine ⟨hcount, ?_, _, IncThreads.finished_oneByOne n m _ w⟩
  split
  · next hle =>
    show StandardComplexCounter.Count _ c = _
    rw [hcount]
    apply wrapInt64_of_isInt64
    unfold isInt64 MinInt64
    constructor
    · omega
    · exact hle
  · trivial

/-- C15, amended, at a concrete input: two threads with two Inc(1) calls each,
interleaved as thread 0, 1, 1, 0 on the counter at address 0 of the empty
world, complete and leave Count() at 4. -/
theorem C15_interleaved_incs_count_wrapped_product_witness :
    StandardComplexCounter.Count (World.empty ()) ⟨0⟩ = 0
      ∧ IncThreads.finished 2
          (IncThreads.run (.ofStandard ⟨0⟩) 2 (IncThreads.start (World.empty ()) 2)
            [0, 1, 1, 0])
      ∧ (ComplexCounter.Count
            (IncThreads.run (.ofStandard ⟨0⟩) 2 (IncThreads.start (World.empty ()) 2)
              [0, 1, 1, 0]).world (.ofStandard ⟨0⟩) = wrapInt64 ((2 * 2 : Nat) : Int)
        ∧ (if ((2 * 2 : Nat) : Int) ≤ MaxInt64 then
            ComplexCounter.Count
              (IncThreads.run (.ofStandard ⟨0⟩) 2 (IncThreads.start (World.empty ()) 2)
                [0, 1, 1, 0]).world (.ofStandard ⟨0⟩) = ((2 * 2 : Nat) : Int)
          else True)
        ∧ ∃ s : List (Fin 2),
            IncThreads.finished 2
              (IncThreads.run (.ofStandard ⟨0⟩) 2 (IncThreads.start (World.empty ()) 2) s))
      ∧ wrapInt64 ((2 * 2 : Nat) : Int) = 4 :=
  ⟨by decide, by decide,
    C15_interleaved_incs_count_wrapped_product 2 2 (World.empty ()) ⟨0⟩ [0, 1, 1, 0]
      (by decide) (by decide),
    by decide⟩

/-! ## Theorems on registration -/

/-- C16, as stated, fails when the entry under the name is not a counter: in
a registry that holds a gauge under "x" no ComplexCounter is registered under
"x", yet GetOrRegisterComplexCounter("x", r) does not return a newly
constructed counter; it panics on the type assertion with the runtime error
for a NilComplexGaugeFloat64 that lacks the method Clear, and the gauge is
still what is registered under "x" afterwards. -/
theorem C16_panics_when_a_gauge_is_registered :
    System.withGauge.registries 0 "x" = some (.gauge (.ofNil {}))
      ∧ (GetOrRegisterComplexCounter System.withGauge "x" (some 0)).1
        = .panics ("interface conversion: metrics.NilComplexGaugeFloat64 is not "
            ++ "metrics.ComplexCounter: missing method Clear")
      ∧ (∀ c : ComplexCounter,
          (GetOrRegisterComplexCounter System.withGauge "x" (some 0)).1 ≠ .returns c)
      ∧ (GetOrRegisterComplexCounter System.withGauge "x" (some 0)).2.registries 0 "x"
        = some (.gauge (.ofNil {})) := by
  have h : System.withGauge.registries 0 "x" = some (.gauge (.ofNil {})) := by
    simp [System.withGauge, System.store]
  have hp : (GetOrRegisterComplexCounter System.withGauge "x" (some 0)).1
      = .panics ("interface conversion: metrics.NilComplexGaugeFloat64 is not "
          ++ "metrics.ComplexCounter: missing method Clear") := by
    have hm : runtime.TypeAssertionError "metrics.NilComplexGaugeFloat64"
        "metrics.ComplexCounter" "Clear"
        = "interface conversion: metrics.NilComplexGaugeFloat64 is not "
            ++ "metrics.ComplexCounter: missing method Clear" := by decide
    simp only [GetOrRegisterComplexCounter, Registry.GetOrRegister, System.registry, h,
      Instance.assertComplexCounter, ComplexGaugeFloat64.typeString, hm]
  refine ⟨h, hp, ?_, ?_⟩
  · intro c hc
    rw [hp] at hc
    cases hc
  · simp [GetOrRegisterComplexCounter, Registry.GetOrRegister, System.registry, h]

/-- C16, amended: for every name and every registry r (DefaultRegistry when r
is nil), GetOrRegisterComplexCounter(name, r) returns the ComplexCounter
registered under name when there is one and changes nothing; panics on the
type assertion, changing nothing, when what is registered under name is not
a ComplexCounter, with the runtime error that names the dynamic type of what
is registered and the missing method Clear; and when nothing is registered
under name returns the
counter NewComplexCounter constructs, which is registered under name
afterwards. A second call with the same name and registry after one that
returned returns the same counter and changes nothing. -/
theorem C16_get_or_register_counter {σ : Type} (s : System σ) (name : String)
    (r : Option Nat) :
    GetOrRegisterComplexCounter s name none
        = GetOrRegisterComplexCounter s name (some s.DefaultRegistry)
      ∧ (match s.registries (s.registry r) name with
        | some (.counter c) => GetOrRegisterComplexCounter s name r = (.returns c, s)
        | some (.gauge g) =>
          GetOrRegisterComplexCounter s name r
            = (.panics (runtime.TypeAssertionError g.typeString
                "metrics.ComplexCounter" "Clear"), s)
        | none =>
          GetOrRegisterComplexCounter s name r
              = (.returns (NewComplexCounter s.world).1,
                  { s with world := (NewComplexCounter s.world).2,
                           registries := s.store (s.registry r) name
                             (.counter (NewComplexCounter s.world).1) })
            ∧ (GetOrRegisterComplexCounter s name r).2.registries (s.registry r) name
              = some (.counter (NewComplexCounter s.world).1))
      ∧ (match (GetOrRegisterComplexCounter s name r).1 with
        | .returns c =>
          GetOrRegisterComplexCounter (GetOrRegisterComplexCounter s name r).2 name r
            = (.returns c, (GetOrRegisterComplexCounter s name r).2)
        | .panics _ => True)
      ∧ (∀ g : ComplexGaugeFloat64 σ,
          runtime.TypeAssertionError g.typeString "metrics.ComplexCounter" "Clear"
            = match g with
              | .ofSnapshot _ =>
                "interface conversion: metrics.ComplexGaugeFloat64Snapshot is not "
                  ++ "metrics.ComplexCounter: missing method Clear"
              | .ofNil _ =>
                "interface conversion: metrics.NilComplexGaugeFloat64 is not "
                  ++ "metrics.ComplexCounter: missing method Clear"
              | .ofStandard _ =>
                "interface conversion: *metrics.StandardComplexGaugeFloat64 is not "
                  ++ "metrics.ComplexCounter: missing method Clear"
              | .ofFunctional _ =>
                "interface conversion: *metrics.FunctionalComplexGaugeFloat64 is not "
                  ++ "metrics.ComplexCounter: missing method Clear") := by
  refine ⟨rfl, ?_, ?_, ?_⟩
  rotate_right
  · intro g
    cases g <;> (simp only [ComplexGaugeFloat64.typeString]; decide)
  · cases h : s.registries (s.registry r) name with
    | none =>
      simp [GetOrRegisterComplexCounter, Registry.GetOrRegister, h,
        Instance.assertComplexCounter, System.store]
    | some i =>
      cases i with
      | counter c =>
        simp [GetOrRegisterComplexCounter, Registry.GetOrRegister, h,
          Instance.assertComplexCounter]
      | gauge g =>
        simp [GetOrRegisterComplexCounter, Registry.GetOrRegister, h,
          Instance.assertComplexCounter]
  · cases h : s.registries (s.registry r) name with
    | none =>
      have h1 : GetOrRegisterComplexCounter s name r
          = (.returns (NewComplexCounter s.world).1,
              { s with world := (NewComplexCounter s.world).2,
                       registries := s.store (s.registry r) name
                         (.counter (NewComplexCounter s.world).1) }) := by
        simp [GetOrRegisterComplexCounter, Registry.GetOrRegister, h,
          Instance.assertComplexCounter]
      rw [h1]
      have hr : ∀ t : System σ, t.DefaultRegistry = s.DefaultRegistry →
          t.registry r = s.registry r := by
        intro t ht; cases r <;> simp [System.registry, ht]
      simp [GetOrRegisterComplexCounter, Registry.GetOrRegister, hr,
        Instance.assertComplexCounter, System.store]
    | some i =>
      cases i with
      | counter c =>
        have h1 : GetOrRegisterComplexCounter s name r = (.returns c, s) := by
          simp [GetOrRegisterComplexCounter, Registry.GetOrRegister, h,
            Instance.assertComplexCounter]
        rw [h1]
        exact h1
      | gauge g =>
        have h1 : GetOrRegisterComplexCounter s name r
            = (.panics (runtime.TypeAssertionError g.typeString
                "metrics.ComplexCounter" "Clear"), s) := by
          simp [GetOrRegisterComplexCounter, Registry.GetOrRegister, h,
            Instance.assertComplexCounter]
        rw [h1]
        trivial

/-- C17, as stated, fails when the name is already used: calling
NewRegisteredComplexCounter("x", r) twice on an empty registry registers the
first counter (at address 0); the second call returns another counter (at
address 1), which is not the registry entry for "x" afterwards, since that
is still the first counter. -/
theorem C17_second_registration_is_dropped :
    (NewRegisteredComplexCounter (System.empty ()) "x" (some 0)).1 = .ofStandard ⟨0⟩
      ∧ (NewRegisteredComplexCounter
          (NewRegisteredComplexCounter (System.empty ()) "x" (some 0)).2 "x" (some 0)).1
        = .ofStandard ⟨1⟩
      ∧ (NewRegisteredComplexCounter
          (NewRegisteredComplexCounter (System.empty ()) "x" (some 0)).2 "x" (some 0)).2.registries
          0 "x" = some (.counter (.ofStandard ⟨0⟩))
      ∧ (NewRegisteredComplexCounter
          (NewRegisteredComplexCounter (System.empty ()) "x" (some 0)).2 "x" (some 0)).2.registries
          0 "x"
        ≠ some (.counter (NewRegisteredComplexCounter
            (NewRegisteredComplexCounter (System.empty ()) "x" (some 0)).2 "x" (some 0)).1) := by
  have h1 : NewRegisteredComplexCounter (System.empty ()) "x" (some 0)
      = (.ofStandard ⟨0⟩,
          { System.empty () with
            world := (NewComplexCounter (World.empty ())).2,
            registries := (System.empty ()).store 0 "x" (.counter (.ofStandard ⟨0⟩)) }) := by
    rfl
  have h2 : NewRegisteredComplexCounter
      (NewRegisteredComplexCounter (System.empty ()) "x" (some 0)).2 "x" (some 0)
      = (.ofStandard ⟨1⟩,
          { (NewRegisteredComplexCounter (System.empty ()) "x" (some 0)).2 with
            world := (NewComplexCounter (NewComplexCounter (World.empty ())).2).2 }) := by
    rw [h1]
    simp [NewRegisteredComplexCounter, Registry.Register, System.registry, System.empty,
      NewComplexCounter, World.empty, System.store]
  refine ⟨by rw [h1], by rw [h2], ?_, ?_⟩
  · rw [h2, h1]
    simp [System.store]
  · rw [h2, h1]
    simp [System.store]

/-- C17, amended: for every name and every registry r (DefaultRegistry when r
is nil), NewRegisteredComplexCounter(name, r) constructs a new counter with
NewComplexCounter and returns it; when name is not yet used in the registry,
the registry entry for name after the call is the counter that was returned;
when name is already used, Register fails, the failure is discarded and the
registries are left as they were. -/
theorem C17_new_registered_counter {σ : Type} (s : System σ) (name : String)
    (r : Option Nat) :
    (NewRegisteredComplexCounter s name r).1 = (NewComplexCounter s.world).1
      ∧ (NewRegisteredComplexCounter s name r).2.world = (NewComplexCounter s.world).2
      ∧ NewRegisteredComplexCounter s name none
        = NewRegisteredComplexCounter s name (some s.DefaultRegistry)
      ∧ (match s.registries (s.registry r) name with
        | none =>
          (NewRegisteredComplexCounter s name r).2.registries (s.registry r) name
            = some (.counter (NewRegisteredComplexCounter s name r).1)
        | some _ =>
          (NewRegisteredComplexCounter s name r).2.registries = s.registries) := by
  refine ⟨rfl, ?_, rfl, ?_⟩
  · cases h : s.registries (s.registry r) name <;>
      simp [NewRegisteredComplexCounter, Registry.Register, h]
  · cases h : s.registries (s.registry r) name <;>
      simp [NewRegisteredComplexCounter, Registry.Register, h, System.store]

end Metrics
